import Mathlib

/-!
Verification development for the hospitals ETL script (src/hospitals_etl.py).

The Python source is shallowly embedded: strings are Lean `String`s and
`List Char`, Python dicts used as watermark maps are association lists with
unique keys (`dictGet` / `dictSet`), exceptions are `Except PyErr`, and the
network / pandas / filesystem effects inside `download` are abstracted by a
`World` oracle record while the control flow of the source is translated
branch for branch.  Regex character classes are modelled on their ASCII
fragment (`\w` = alphanumeric or underscore, `\s` = whitespace).
-/

namespace HospitalsEtl

/-- Constant `TIMEOUT` from the source (per-request timeout, seconds). -/
def TIMEOUT : Nat := 60

/-- Constant `THEME` from the source: the catalog theme filter. -/
def THEME : String := "Hospitals"

/-- The apostrophe character U+0027, written by code point. -/
def apostrophe : Char := Char.ofNat 39

/-- Python regex word character `\w`, ASCII fragment: alphanumeric or underscore. -/
def isWordChar (c : Char) : Bool := c.isAlphanum || c == '_'

/-- Model of `str.strip()`: drop leading and trailing whitespace. -/
def stripChars (l : List Char) : List Char :=
  ((l.dropWhile Char.isWhitespace).reverse.dropWhile Char.isWhitespace).reverse

/-- Model of `.replace(.., ..)` removing every apostrophe character. -/
def removeApostrophes (l : List Char) : List Char :=
  l.filter (fun c => !(c == apostrophe))

/-- Model of the regex deletion of every character that is neither a word
character nor whitespace. -/
def keepWordOrSpace (l : List Char) : List Char :=
  l.filter (fun c => isWordChar c || c.isWhitespace)

/-- Model of the regex substitution replacing each maximal whitespace run by a
single underscore. -/
def collapseWs : List Char → List Char
  | [] => []
  | [c] => if c.isWhitespace then ['_'] else [c]
  | a :: b :: rest =>
    if a.isWhitespace then
      if b.isWhitespace then collapseWs (b :: rest)
      else '_' :: collapseWs (b :: rest)
    else a :: collapseWs (b :: rest)

/-- The full normalization pipeline of `to_snake` on a character list:
strip, remove apostrophes, delete other punctuation, collapse whitespace to
underscores, lowercase. -/
def snakeChars (l : List Char) : List Char :=
  (collapseWs (keepWordOrSpace (removeApostrophes (stripChars l)))).map Char.toLower

/-- Function to_snake from the source: convert a header to snake_case. -/
def to_snake (s : String) : String :=
  String.mk (snakeChars s.data)

/-! ### Character-level facts used for idempotence -/

theorem charEq_of_toNat (c d : Char) (h : c.toNat = d.toNat) : c = d :=
  Char.eq_of_val_eq (UInt32.ext h)

theorem isWhitespace_iff (c : Char) :
    c.isWhitespace = true ↔ (c.toNat = 32 ∨ c.toNat = 9 ∨ c.toNat = 13 ∨ c.toNat = 10) := by
  simp only [Char.isWhitespace, Bool.or_eq_true, decide_eq_true_eq]
  constructor
  · rintro (((h|h)|h)|h) <;> rw [h] <;> simp
  · rintro (h|h|h|h)
    · exact Or.inl (Or.inl (Or.inl (charEq_of_toNat _ _ h)))
    · exact Or.inl (Or.inl (Or.inr (charEq_of_toNat _ _ h)))
    · exact Or.inl (Or.inr (charEq_of_toNat _ _ h))
    · exact Or.inr (charEq_of_toNat _ _ h)

theorem isUpper_iff (c : Char) : c.isUpper = true ↔ (65 ≤ c.toNat ∧ c.toNat ≤ 90) := by
  simp only [Char.isUpper, Bool.and_eq_true, decide_eq_true_eq]
  rfl

theorem isLower_iff (c : Char) : c.isLower = true ↔ (97 ≤ c.toNat ∧ c.toNat ≤ 122) := by
  simp only [Char.isLower, Bool.and_eq_true, decide_eq_true_eq]
  rfl

theorem isDigit_iff (c : Char) : c.isDigit = true ↔ (48 ≤ c.toNat ∧ c.toNat ≤ 57) := by
  simp only [Char.isDigit, Bool.and_eq_true, decide_eq_true_eq]
  rfl

theorem charToNat_ofNat (n : Nat) (h : n < 55296) : (Char.ofNat n).toNat = n := by
  have hv : n.isValidChar := Or.inl h
  rw [Char.ofNat, dif_pos hv]
  rfl

theorem toLower_eq (c : Char) :
    c.toLower = if 65 ≤ c.toNat ∧ c.toNat ≤ 90 then Char.ofNat (c.toNat + 32) else c := rfl

theorem char_eq_underscore_iff (c : Char) : c = '_' ↔ c.toNat = 95 :=
  ⟨fun h => by rw [h]; rfl, fun h => charEq_of_toNat _ _ (by rw [h]; rfl)⟩

theorem isWordChar_iff (c : Char) :
    isWordChar c = true ↔
      ((48 ≤ c.toNat ∧ c.toNat ≤ 57) ∨ (65 ≤ c.toNat ∧ c.toNat ≤ 90) ∨
        (97 ≤ c.toNat ∧ c.toNat ≤ 122) ∨ c.toNat = 95) := by
  simp only [isWordChar, Char.isAlphanum, Char.isAlpha, Bool.or_eq_true, beq_iff_eq,
    isUpper_iff, isLower_iff, isDigit_iff, char_eq_underscore_iff]
  tauto

theorem toLower_word_props (c : Char) (h : isWordChar c = true) :
    isWordChar c.toLower = true ∧ c.toLower.isWhitespace = false ∧
      (c.toLower == apostrophe) = false ∧ c.toLower.toLower = c.toLower := by
  have hr := (isWordChar_iff c).mp h
  by_cases hc : 65 ≤ c.toNat ∧ c.toNat ≤ 90
  · have e : c.toLower = Char.ofNat (c.toNat + 32) := by rw [toLower_eq, if_pos hc]
    have ht : c.toLower.toNat = c.toNat + 32 := by
      rw [e]; exact charToNat_ofNat _ (by omega)
    refine ⟨(isWordChar_iff c.toLower).mpr ?_, ?_, ?_, ?_⟩
    · exact Or.inr (Or.inr (Or.inl (by omega)))
    · cases hw : c.toLower.isWhitespace with
      | false => rfl
      | true => exact absurd ((isWhitespace_iff _).mp hw) (by omega)
    · cases ha : (c.toLower == apostrophe) with
      | false => rfl
      | true =>
        have : c.toLower = apostrophe := beq_iff_eq.mp ha
        have : c.toLower.toNat = 39 := by rw [this]; rfl
        omega
    · rw [toLower_eq c.toLower, if_neg (by omega)]
  · have hranges : (48 ≤ c.toNat ∧ c.toNat ≤ 57) ∨ (97 ≤ c.toNat ∧ c.toNat ≤ 122) ∨
        c.toNat = 95 := by
      rcases hr with h1 | h1 | h1 | h1
      · exact Or.inl h1
      · exact absurd h1 hc
      · exact Or.inr (Or.inl h1)
      · exact Or.inr (Or.inr h1)
    have e : c.toLower = c := by rw [toLower_eq, if_neg hc]
    refine ⟨by rw [e]; exact h, ?_, ?_, by rw [e, e]⟩
    · rw [e]
      cases hw : c.isWhitespace with
      | false => rfl
      | true => exact absurd ((isWhitespace_iff _).mp hw) (by omega)
    · rw [e]
      cases ha : (c == apostrophe) with
      | false => rfl
      | true =>
        have : c = apostrophe := beq_iff_eq.mp ha
        have : c.toNat = 39 := by rw [this]; rfl
        omega

/-! ### Stage identity lemmas -/

theorem dropWhile_eq_self_of (p : Char → Bool) (l : List Char)
    (h : ∀ c ∈ l, p c = false) : l.dropWhile p = l := by
  cases l with
  | nil => rfl
  | cons a t => simp [List.dropWhile_cons, h a (List.mem_cons_self a t)]

theorem stripChars_eq_self (l : List Char)
    (h : ∀ c ∈ l, c.isWhitespace = false) : stripChars l = l := by
  unfold stripChars
  rw [dropWhile_eq_self_of _ _ h, dropWhile_eq_self_of, List.reverse_reverse]
  intro c hc
  exact h c (List.mem_reverse.mp hc)

theorem collapseWs_eq_self : ∀ l : List Char, (∀ c ∈ l, c.isWhitespace = false) →
    collapseWs l = l
  | [], _ => rfl
  | [c], h => by simp [collapseWs, h c (List.mem_singleton.mpr rfl)]
  | a :: b :: rest, h => by
    have ha := h a (List.mem_cons_self a _)
    have hrec := collapseWs_eq_self (b :: rest)
      (fun c hc => h c (List.mem_cons_of_mem a hc))
    simp [collapseWs, ha, hrec]

theorem map_eq_self_of (f : Char → Char) (l : List Char)
    (h : ∀ c ∈ l, f c = c) : l.map f = l := by
  induction l with
  | nil => rfl
  | cons a t ih =>
    simp [h a (List.mem_cons_self a t), ih (fun c hc => h c (List.mem_cons_of_mem a hc))]

theorem mem_collapseWs : ∀ (l : List Char) (c : Char), c ∈ collapseWs l →
    c = '_' ∨ (c ∈ l ∧ c.isWhitespace = false)
  | [], c, hc => absurd hc (List.not_mem_nil c)
  | [a], c, hc => by
    by_cases ha : a.isWhitespace
    · simp [collapseWs, ha] at hc
      exact Or.inl hc
    · simp [collapseWs, ha] at hc
      subst hc
      exact Or.inr ⟨List.mem_singleton.mpr rfl, Bool.eq_false_iff.mpr ha⟩
  | a :: b :: rest, c, hc => by
    by_cases ha : a.isWhitespace
    · by_cases hb : b.isWhitespace
      · simp only [collapseWs, if_pos ha, if_pos hb] at hc
        rcases mem_collapseWs (b :: rest) c hc with h | ⟨hm, hw⟩
        · exact Or.inl h
        · exact Or.inr ⟨List.mem_cons_of_mem a hm, hw⟩
      · simp only [collapseWs, if_pos ha, if_neg hb, List.mem_cons] at hc
        rcases hc with h | h
        · exact Or.inl h
        · rcases mem_collapseWs (b :: rest) c h with h2 | ⟨hm, hw⟩
          · exact Or.inl h2
          · exact Or.inr ⟨List.mem_cons_of_mem a hm, hw⟩
    · simp only [collapseWs, if_neg ha, List.mem_cons] at hc
      rcases hc with h | h
      · subst h
        exact Or.inr ⟨List.mem_cons_self c _, Bool.eq_false_iff.mpr ha⟩
      · rcases mem_collapseWs (b :: rest) c h with h2 | ⟨hm, hw⟩
        · exact Or.inl h2
        · exact Or.inr ⟨List.mem_cons_of_mem a hm, hw⟩

theorem snakeChars_mem (l : List Char) (c : Char) (hc : c ∈ snakeChars l) :
    ∃ d, isWordChar d = true ∧ c = d.toLower := by
  unfold snakeChars at hc
  rcases List.mem_map.mp hc with ⟨d, hd, rfl⟩
  rcases mem_collapseWs _ _ hd with h | ⟨hm, hws⟩
  · subst h
    exact ⟨'_', by decide, by decide⟩
  · have hf := (List.mem_filter.mp hm).2
    rcases Bool.or_eq_true _ _ |>.mp hf with hw | hsp
    · exact ⟨d, hw, rfl⟩
    · exact absurd hsp (by rw [hws]; exact Bool.false_ne_true)

theorem snakeChars_fixed (l : List Char)
    (h : ∀ c ∈ l, isWordChar c = true ∧ c.isWhitespace = false ∧
      (c == apostrophe) = false ∧ c.toLower = c) :
    snakeChars l = l := by
  unfold snakeChars
  rw [stripChars_eq_self l (fun c hc => (h c hc).2.1)]
  rw [show removeApostrophes l = l from
    List.filter_eq_self.mpr (fun c hc => by simp [(h c hc).2.2.1])]
  rw [show keepWordOrSpace l = l from
    List.filter_eq_self.mpr (fun c hc => by simp [(h c hc).1])]
  rw [collapseWs_eq_self l (fun c hc => (h c hc).2.1)]
  exact map_eq_self_of _ l (fun c hc => (h c hc).2.2.2)

/-- C7: the header normalizer realizes the specified pipeline: trim
whitespace, remove apostrophes, delete all characters that are neither word
characters nor whitespace, collapse whitespace runs to single underscores,
lowercase; on the two specification examples it produces `patients_name` and
`zip_code`. -/
theorem c7_to_snake_pipeline :
    to_snake " Patient\u0027s  Name! " = "patients_name" ∧
    to_snake "ZIP Code" = "zip_code" ∧
    ∀ s : String, to_snake s =
      String.mk ((collapseWs (keepWordOrSpace (removeApostrophes
        (stripChars s.data)))).map Char.toLower) :=
  ⟨by decide, by decide, fun _ => rfl⟩

/-- C8: the header normalizer is total and deterministic (it is a Lean
function) and idempotent: normalizing an already-normalized string returns it
unchanged. -/
theorem c8_to_snake_idempotent : ∀ s : String, to_snake (to_snake s) = to_snake s := by
  intro s
  show String.mk (snakeChars (snakeChars s.data)) = String.mk (snakeChars s.data)
  have : snakeChars (snakeChars s.data) = snakeChars s.data := by
    apply snakeChars_fixed
    intro c hc
    rcases snakeChars_mem _ _ hc with ⟨d, hd, rfl⟩
    exact toLower_word_props d hd
  rw [this]

/-! ### Data model of the ETL run

A Python dict read from the catalog JSON is a `RawRecord` whose possibly
missing keys are `Option` fields; `pyGet` models `d[key]` (a `KeyError` when
the key is absent) and the `Option` value itself models `d.get(key)`.  The
watermark map is an association list with unique keys, matching a Python
dict built by item assignment. -/

inductive PyErr where
  | keyError : String → PyErr
  | fetchError : PyErr
  | parseError : PyErr
  | writeError : PyErr
  | otherError : PyErr
deriving DecidableEq

/-- A catalog dataset record as decoded from JSON; every field the script
reads, each optional because a JSON object may omit it. -/
structure Distribution where
  mediaType : Option String
  downloadURL : Option String
deriving DecidableEq

structure RawRecord where
  identifier : Option String
  modified : Option String
  title : Option String
  theme : List String
  distribution : List Distribution
deriving DecidableEq

/-- Python subscript `d[key]`: the value, or a raised `KeyError`. -/
def pyGet (k : String) : Option String → Except PyErr String
  | some v => Except.ok v
  | none => Except.error (PyErr.keyError k)

/-- The watermark map: dataset identifier to last-seen modified marker. -/
abbrev Meta := List (String × String)

/-- Python `meta.get(k)` on the watermark dict. -/
def dictGet (m : Meta) (k : String) : Option String :=
  match m.find? (fun p => p.1 == k) with
  | some p => some p.2
  | none => none

/-- Python `meta[k] = v` on a dict with unique keys: replace in place, or
append a new entry. -/
def dictSet : Meta → String → String → Meta
  | [], k, v => [(k, v)]
  | p :: t, k, v => if p.1 == k then (k, v) :: t else p :: dictSet t k v

/-- Python truthiness of an optional string: `None` and the empty string are
falsy. -/
def pyFalsy : Option String → Bool
  | none => true
  | some s => s == ""

/-- Function needs_update from the source:
`meta.get(ds["identifier"]) != ds["modified"]`. -/
def needs_update (ds : RawRecord) (meta : Meta) : Except PyErr Bool :=
  match ds.identifier with
  | none => Except.error (PyErr.keyError "identifier")
  | some i =>
    match ds.modified with
    | none => Except.error (PyErr.keyError "modified")
    | some m => Except.ok (dictGet meta i != some m)

/-- The loop predicate of `get_csv_url`: the distribution media type equals
`text/csv`. -/
def csvPred (d : Distribution) : Bool := d.mediaType == some "text/csv"

/-- Function get_csv_url from the source: first distribution whose media type is
`text/csv`; otherwise the first distribution; otherwise no URL.  The
selected entry may itself lack `downloadURL`, in which case the result is
`none` exactly as `dist.get("downloadURL")` returns `None`. -/
def get_csv_url (ds : RawRecord) : Option String :=
  match ds.distribution.find? csvPred with
  | some d => d.downloadURL
  | none =>
    match ds.distribution with
    | [] => none
    | d :: _ => d.downloadURL

/-- One HTTP GET issued by the item pipeline: the URL and the request
timeout, `none` when the call passes no timeout (the pandas URL reads). -/
structure Request where
  url : String
  timeout : Option Nat
deriving DecidableEq

/-- Result of the first `pd.read_csv` attempt: success, a `ParserError`
(which triggers the retry ladder), or any other exception (which propagates
to the outer handler). -/
inductive ParseRes where
  | ok : ParseRes
  | badLines : ParseRes
  | otherError : ParseRes
deriving DecidableEq

/-- Oracle for the external effects of one run: HTTP success per URL, the
three `pd.read_csv` attempts per URL, and filesystem write success per
path.  The claims quantify over all oracles. -/
structure World where
  http : String → Bool
  parse1 : String → ParseRes
  parse2 : String → Bool
  parse3 : String → Bool
  write : String → Bool

/-- A run outcome triple `(identifier, modified, success)`. -/
abbrev Outcome := String × String × Bool

/-- The normalize-and-write tail of `download`: `df.to_csv(path)` followed by
`return dsid, ds["modified"], True`.  The accumulated request trace is
returned unchanged. -/
def persistStep (w : World) (ds : RawRecord) (dsid out_dir : String)
    (tr : List Request) : List Request × Except PyErr Outcome :=
  if w.write (out_dir ++ "/" ++ dsid ++ ".csv") then
    match pyGet "modified" ds.modified with
    | Except.error e => (tr, Except.error e)
    | Except.ok m => (tr, Except.ok (dsid, m, true))
  else (tr, Except.error PyErr.writeError)

/-- The fetch-and-parse segment of `download` for a resolved, truthy URL:
`requests.get(url, timeout=TIMEOUT)` with `raise_for_status`, then the
three-step `pd.read_csv` ladder (each read fetches the URL again, with no
timeout), then `persistStep`. -/
def fetchAndParse (w : World) (ds : RawRecord) (dsid url out_dir : String) :
    List Request × Except PyErr Outcome :=
  if w.http url then
    match w.parse1 url with
    | ParseRes.ok =>
      persistStep w ds dsid out_dir [⟨url, some TIMEOUT⟩, ⟨url, none⟩]
    | ParseRes.otherError =>
      ([⟨url, some TIMEOUT⟩, ⟨url, none⟩], Except.error PyErr.otherError)
    | ParseRes.badLines =>
      if w.parse2 url then
        persistStep w ds dsid out_dir [⟨url, some TIMEOUT⟩, ⟨url, none⟩, ⟨url, none⟩]
      else if w.parse3 url then
        persistStep w ds dsid out_dir
          [⟨url, some TIMEOUT⟩, ⟨url, none⟩, ⟨url, none⟩, ⟨url, none⟩]
      else
        ([⟨url, some TIMEOUT⟩, ⟨url, none⟩, ⟨url, none⟩, ⟨url, none⟩],
          Except.error PyErr.parseError)
  else ([⟨url, some TIMEOUT⟩], Except.error PyErr.fetchError)

/-- The body of the `try` block of `download` after `dsid` was read: resolve
the URL, return a failed outcome if it is falsy, otherwise fetch, parse and
persist.  Returns the issued request trace together with the outcome or the
raised error. -/
def downloadBody (w : World) (ds : RawRecord) (dsid out_dir : String) :
    List Request × Except PyErr Outcome :=
  let csv_url := get_csv_url ds
  if pyFalsy csv_url then
    match pyGet "modified" ds.modified with
    | Except.error e => ([], Except.error e)
    | Except.ok m => ([], Except.ok (dsid, m, false))
  else
    match csv_url with
    | none => ([], Except.error PyErr.otherError)
    | some url => fetchAndParse w ds dsid url out_dir

/-- Function download from the source: reads `ds["identifier"]` before the `try`
block; any error raised inside the block is caught and converted to
`(dsid, ds["modified"], False)` — where that final subscript itself raises
if the key is missing. -/
def download (w : World) (ds : RawRecord) (out_dir : String) :
    Except PyErr (List Request × Outcome) :=
  match pyGet "identifier" ds.identifier with
  | Except.error e => Except.error e
  | Except.ok dsid =>
    match downloadBody w ds dsid out_dir with
    | (tr, Except.ok out) => Except.ok (tr, out)
    | (tr, Except.error _) =>
      match pyGet "modified" ds.modified with
      | Except.error e => Except.error e
      | Except.ok m => Except.ok (tr, (dsid, m, false))

/-- The oracle condition under which the item pipeline of `download` reaches
its success return: a truthy resolved URL, HTTP validation success, a parse
attempt of the ladder that succeeds, and a successful write of the output
file.  `download` is proved to return exactly this flag, so every failure of
URL resolution, retrieval, parsing or persistence yields a `false` flag. -/
def itemSucceeds (w : World) (ds : RawRecord) (dsid out_dir : String) : Bool :=
  match get_csv_url ds with
  | none => false
  | some url =>
    !(url == "") &&
      (w.http url &&
        ((match w.parse1 url with
          | ParseRes.ok => true
          | ParseRes.otherError => false
          | ParseRes.badLines => w.parse2 url || w.parse3 url) &&
          w.write (out_dir ++ "/" ++ dsid ++ ".csv")))

/-- The theme filter inside `fetch_catalog`:
`[d for d in data if THEME in d.get("theme", [])]`. -/
def theme_filter (data : List RawRecord) : List RawRecord :=
  data.filter (fun d => d.theme.contains THEME)

/-- The catalog loop of `main`: for each dataset decide membership in the
work list with `needs_update` against the old map, and unconditionally
record `new_meta[ds["identifier"]] = ds["modified"]`.  A `KeyError` raised
by either subscript aborts the run. -/
def mainLoop (old : Meta) : List RawRecord → List RawRecord → Meta →
    Except PyErr (List RawRecord × Meta)
  | [], todo, nm => Except.ok (todo, nm)
  | ds :: rest, todo, nm =>
    match needs_update ds old with
    | Except.error e => Except.error e
    | Except.ok nu =>
      match pyGet "identifier" ds.identifier with
      | Except.error e => Except.error e
      | Except.ok i =>
        match pyGet "modified" ds.modified with
        | Except.error e => Except.error e
        | Except.ok m =>
          mainLoop old rest (if nu then todo ++ [ds] else todo) (dictSet nm i m)

/-- The thread-pool dispatch of `main`: one `download` per work item, all
collected before proceeding.  `future.result()` re-raises any error a worker
raised. -/
def runDownloads (w : World) : List RawRecord → String →
    Except PyErr (List (List Request × Outcome))
  | [], _ => Except.ok []
  | ds :: rest, dir =>
    match download w ds dir with
    | Except.error e => Except.error e
    | Except.ok r =>
      match runDownloads w rest dir with
      | Except.error e => Except.error e
      | Except.ok rs => Except.ok (r :: rs)

/-- The observable result of a completed run: the watermark map passed to the
final `save_meta`, the collected outcomes, and every content request
issued. -/
structure RunResult where
  savedMeta : Meta
  outcomes : List Outcome
  requests : List Request
deriving DecidableEq

/-- Function main from the source, for a successfully fetched catalog `data`: build
the work list and new watermark map, return early (after saving) when the
work list is empty, otherwise run all downloads and save.  An `Except.error`
result models an uncaught exception, in which case `save_meta` is never
reached and no watermark map is persisted. -/
def main_run (w : World) (data : List RawRecord) (old_meta : Meta)
    (target_dir : String) : Except PyErr RunResult :=
  match mainLoop old_meta (theme_filter data) [] [] with
  | Except.error e => Except.error e
  | Except.ok (todo, new_meta) =>
    if todo.isEmpty then Except.ok ⟨new_meta, [], []⟩
    else
      match runDownloads w todo target_dir with
      | Except.error e => Except.error e
      | Except.ok results =>
        Except.ok ⟨new_meta, results.map (fun r => r.2),
          (results.map (fun r => r.1)).flatten⟩

/-! ### Watermark dictionary lemmas -/

theorem dictGet_dictSet_self : ∀ (m : Meta) (k v : String),
    dictGet (dictSet m k v) k = some v
  | [], k, v => by simp [dictSet, dictGet, List.find?]
  | p :: t, k, v => by
    by_cases h : p.1 == k
    · simp [dictSet, h, dictGet, List.find?]
    · simp only [dictSet, if_neg h]
      simp only [dictGet, List.find?, h]
      exact dictGet_dictSet_self t k v

theorem dictGet_dictSet_other : ∀ (m : Meta) (k v k2 : String), k2 ≠ k →
    dictGet (dictSet m k v) k2 = dictGet m k2
  | [], k, v, k2, h => by
    simp [dictSet, dictGet, List.find?, beq_eq_false_iff_ne.mpr (Ne.symm h)]
  | p :: t, k, v, k2, h => by
    by_cases hp : p.1 == k
    · have hk2 : (k == k2) = false := beq_eq_false_iff_ne.mpr (Ne.symm h)
      have hp2 : (p.1 == k2) = false := by rw [beq_iff_eq.mp hp]; exact hk2
      simp only [dictSet, if_pos hp, dictGet, List.find?, hk2, hp2]
    · simp only [dictSet, if_neg hp, dictGet, List.find?]
      cases hq : (p.1 == k2) with
      | true => rfl
      | false => exact dictGet_dictSet_other t k v k2 h

/-! ### Loop characterization

`recKey`, `recMod`, `catalogTodo` and `catalogMeta` are derived pure views
of the loop in `main`, proved equal to `mainLoop` when every record carries
both required keys. -/

def recKey (ds : RawRecord) : String := ds.identifier.getD ""

def recMod (ds : RawRecord) : String := ds.modified.getD ""

def catalogTodo (old : Meta) (catalog : List RawRecord) (todo : List RawRecord) :
    List RawRecord :=
  catalog.foldl
    (fun acc ds => if dictGet old (recKey ds) != some (recMod ds) then acc ++ [ds] else acc)
    todo

def catalogMeta (catalog : List RawRecord) (nm : Meta) : Meta :=
  catalog.foldl (fun acc ds => dictSet acc (recKey ds) (recMod ds)) nm

theorem catalogTodo_cons (old : Meta) (d : RawRecord) (rest : List RawRecord)
    (todo : List RawRecord) :
    catalogTodo old (d :: rest) todo =
      catalogTodo old rest
        (if dictGet old (recKey d) != some (recMod d) then todo ++ [d] else todo) := rfl

theorem catalogMeta_cons (d : RawRecord) (rest : List RawRecord) (nm : Meta) :
    catalogMeta (d :: rest) nm = catalogMeta rest (dictSet nm (recKey d) (recMod d)) := rfl

theorem mainLoop_eq (old : Meta) : ∀ (catalog : List RawRecord) (todo : List RawRecord)
    (nm : Meta), (∀ ds ∈ catalog, ds.identifier.isSome ∧ ds.modified.isSome) →
    mainLoop old catalog todo nm =
      Except.ok (catalogTodo old catalog todo, catalogMeta catalog nm)
  | [], todo, nm, _ => rfl
  | ds :: rest, todo, nm, h => by
    rcases h ds (List.mem_cons_self ds rest) with ⟨hi, hm⟩
    rcases Option.isSome_iff_exists.mp hi with ⟨i, hi⟩
    rcases Option.isSome_iff_exists.mp hm with ⟨m, hm⟩
    have hrest := fun d hd => h d (List.mem_cons_of_mem ds hd)
    simp only [mainLoop, needs_update, hi, hm, pyGet]
    rw [mainLoop_eq old rest _ _ hrest, catalogTodo_cons, catalogMeta_cons]
    simp only [recKey, recMod, hi, hm, Option.getD_some]

theorem mem_catalogTodo (old : Meta) : ∀ (catalog : List RawRecord)
    (todo : List RawRecord) (ds : RawRecord), ds ∈ catalogTodo old catalog todo →
    ds ∈ todo ∨ ds ∈ catalog
  | [], todo, ds, h => Or.inl h
  | d :: rest, todo, ds, h => by
    rw [catalogTodo_cons] at h
    rcases mem_catalogTodo old rest _ ds h with h2 | h2
    · by_cases hcond : dictGet old (recKey d) != some (recMod d)
      · rw [if_pos hcond] at h2
        rcases List.mem_append.mp h2 with h3 | h3
        · exact Or.inl h3
        · exact Or.inr (by rw [List.mem_singleton.mp h3]; exact List.mem_cons_self d rest)
      · rw [if_neg hcond] at h2
        exact Or.inl h2
    · exact Or.inr (List.mem_cons_of_mem d h2)

theorem catalogTodo_nil_of_match (old : Meta) : ∀ (catalog : List RawRecord),
    (∀ ds ∈ catalog, dictGet old (recKey ds) = some (recMod ds)) →
    ∀ todo, catalogTodo old catalog todo = todo
  | [], _, todo => rfl
  | d :: rest, h, todo => by
    rw [catalogTodo_cons, h d (List.mem_cons_self d rest), bne_self_eq_false]
    exact catalogTodo_nil_of_match old rest
      (fun ds hds => h ds (List.mem_cons_of_mem d hds)) todo

theorem dictGet_catalogMeta_of_not_mem : ∀ (catalog : List RawRecord) (nm : Meta)
    (k : String), (∀ ds ∈ catalog, recKey ds ≠ k) →
    dictGet (catalogMeta catalog nm) k = dictGet nm k
  | [], _, _, _ => rfl
  | d :: rest, nm, k, h => by
    rw [catalogMeta_cons, dictGet_catalogMeta_of_not_mem rest _ k
      (fun ds hds => h ds (List.mem_cons_of_mem d hds))]
    exact dictGet_dictSet_other nm (recKey d) (recMod d) k
      (fun he => h d (List.mem_cons_self d rest) he.symm)

theorem dictGet_catalogMeta : ∀ (catalog : List RawRecord) (nm : Meta),
    ((catalog.map recKey).Nodup) → ∀ ds ∈ catalog,
    dictGet (catalogMeta catalog nm) (recKey ds) = some (recMod ds)
  | [], _, _, ds, hds => absurd hds (List.not_mem_nil ds)
  | d :: rest, nm, hnd, ds, hds => by
    rw [List.map_cons] at hnd
    have hnd2 := List.nodup_cons.mp hnd
    rcases List.mem_cons.mp hds with h | h
    · subst h
      rw [catalogMeta_cons, dictGet_catalogMeta_of_not_mem rest _ (recKey ds)
        (fun e he hek => hnd2.1 (hek ▸ List.mem_map_of_mem recKey he))]
      exact dictGet_dictSet_self nm (recKey ds) (recMod ds)
    · exact dictGet_catalogMeta rest _ hnd2.2 ds h

/-! ### Shape of the item pipeline -/

theorem persistStep_shape (w : World) (ds : RawRecord) (dsid out_dir : String)
    (tr : List Request) (m : String) (hm : ds.modified = some m) :
    persistStep w ds dsid out_dir tr = (tr, Except.ok (dsid, m, true)) ∨
    persistStep w ds dsid out_dir tr = (tr, Except.error PyErr.writeError) := by
  unfold persistStep
  rw [hm]
  by_cases hw : w.write (out_dir ++ "/" ++ dsid ++ ".csv")
  · rw [if_pos hw]
    exact Or.inl rfl
  · rw [if_neg hw]
    exact Or.inr rfl

theorem fetchAndParse_shape (w : World) (ds : RawRecord) (dsid url out_dir : String)
    (m : String) (hm : ds.modified = some m) :
    (∃ tr, fetchAndParse w ds dsid url out_dir = (tr, Except.ok (dsid, m, true))) ∨
    (∃ tr e, fetchAndParse w ds dsid url out_dir = (tr, Except.error e)) := by
  unfold fetchAndParse
  by_cases hh : w.http url
  · rw [if_pos hh]
    cases hp : w.parse1 url with
    | ok =>
      rcases persistStep_shape w ds dsid out_dir _ m hm with h | h
      · exact Or.inl ⟨_, h⟩
      · exact Or.inr ⟨_, _, h⟩
    | otherError => exact Or.inr ⟨_, _, rfl⟩
    | badLines =>
      by_cases h2 : w.parse2 url
      · rw [if_pos h2]
        rcases persistStep_shape w ds dsid out_dir _ m hm with h | h
        · exact Or.inl ⟨_, h⟩
        · exact Or.inr ⟨_, _, h⟩
      · rw [if_neg h2]
        by_cases h3 : w.parse3 url
        · rw [if_pos h3]
          rcases persistStep_shape w ds dsid out_dir _ m hm with h | h
          · exact Or.inl ⟨_, h⟩
          · exact Or.inr ⟨_, _, h⟩
        · rw [if_neg h3]
          exact Or.inr ⟨_, _, rfl⟩
  · rw [if_neg hh]
    exact Or.inr ⟨_, _, rfl⟩

theorem downloadBody_shape (w : World) (ds : RawRecord) (dsid out_dir : String)
    (m : String) (hm : ds.modified = some m) :
    (∃ tr b, downloadBody w ds dsid out_dir = (tr, Except.ok (dsid, m, b))) ∨
    (∃ tr e, downloadBody w ds dsid out_dir = (tr, Except.error e)) := by
  unfold downloadBody
  by_cases hf : pyFalsy (get_csv_url ds)
  · rw [if_pos hf]
    rw [hm]
    exact Or.inl ⟨[], false, rfl⟩
  · rw [if_neg hf]
    cases hu : get_csv_url ds with
    | none => exact Or.inr ⟨[], PyErr.otherError, rfl⟩
    | some url =>
      rcases fetchAndParse_shape w ds dsid url out_dir m hm with ⟨tr, h⟩ | ⟨tr, e, h⟩
      · exact Or.inl ⟨tr, true, h⟩
      · exact Or.inr ⟨tr, e, h⟩

theorem download_ok (w : World) (ds : RawRecord) (out_dir : String) (i m : String)
    (hi : ds.identifier = some i) (hm : ds.modified = some m) :
    ∃ tr b, download w ds out_dir = Except.ok (tr, (i, m, b)) := by
  unfold download
  rw [hi]
  show (∃ tr b, (match downloadBody w ds i out_dir with
    | (tr, Except.ok out) => Except.ok (tr, out)
    | (tr, Except.error _) =>
      match pyGet "modified" ds.modified with
      | Except.error e => Except.error e
      | Except.ok m2 => Except.ok (tr, (i, m2, false))) = Except.ok (tr, (i, m, b)))
  rcases downloadBody_shape w ds i out_dir m hm with ⟨tr, b, h⟩ | ⟨tr, e, h⟩
  · exact ⟨tr, b, by rw [h]⟩
  · refine ⟨tr, false, ?_⟩
    rw [h, hm]
    rfl

theorem downloadBody_flag (w : World) (ds : RawRecord) (dsid out_dir : String)
    (m : String) (hm : ds.modified = some m) :
    (∃ tr, downloadBody w ds dsid out_dir = (tr, Except.ok (dsid, m, true)) ∧
      itemSucceeds w ds dsid out_dir = true) ∨
    (∃ tr, downloadBody w ds dsid out_dir = (tr, Except.ok (dsid, m, false)) ∧
      itemSucceeds w ds dsid out_dir = false) ∨
    (∃ tr e, downloadBody w ds dsid out_dir = (tr, Except.error e) ∧
      itemSucceeds w ds dsid out_dir = false) := by
  cases hu : get_csv_url ds with
  | none =>
    refine Or.inr (Or.inl ⟨[], ?_, ?_⟩)
    · simp only [downloadBody, hu, pyFalsy, if_true, hm, pyGet]
    · simp [itemSucceeds, hu]
  | some url =>
    cases hfal : (url == "") with
    | true =>
      refine Or.inr (Or.inl ⟨[], ?_, ?_⟩)
      · have hf : pyFalsy (some url) = true := hfal
        simp only [downloadBody, hu, hf, if_true, hm, pyGet]
      · simp [itemSucceeds, hu, hfal]
    | false =>
      have hf : pyFalsy (some url) = false := hfal
      cases hh : w.http url with
      | false =>
        refine Or.inr (Or.inr ⟨[⟨url, some TIMEOUT⟩], PyErr.fetchError, ?_, ?_⟩)
        · simp only [downloadBody, hu, hf, Bool.false_eq_true, if_false, fetchAndParse,
            hh]
        · simp [itemSucceeds, hu, hh]
      | true =>
        cases hp : w.parse1 url with
        | otherError =>
          refine Or.inr (Or.inr ⟨[⟨url, some TIMEOUT⟩, ⟨url, none⟩],
            PyErr.otherError, ?_, ?_⟩)
          · simp only [downloadBody, hu, hf, Bool.false_eq_true, if_false, fetchAndParse,
              hh, if_true, hp]
          · simp [itemSucceeds, hu, hfal, hp]
        | ok =>
          cases hw : w.write (out_dir ++ "/" ++ dsid ++ ".csv") with
          | true =>
            refine Or.inl ⟨[⟨url, some TIMEOUT⟩, ⟨url, none⟩], ?_, ?_⟩
            · simp only [downloadBody, hu, hf, Bool.false_eq_true, if_false,
                fetchAndParse, hh, if_true, hp, persistStep, hw, hm, pyGet]
            · simp [itemSucceeds, hu, hfal, hh, hp, hw]
          | false =>
            refine Or.inr (Or.inr ⟨[⟨url, some TIMEOUT⟩, ⟨url, none⟩],
              PyErr.writeError, ?_, ?_⟩)
            · simp only [downloadBody, hu, hf, Bool.false_eq_true, if_false,
                fetchAndParse, hh, if_true, hp, persistStep, hw]
            · simp [itemSucceeds, hu, hfal, hp, hw]
        | badLines =>
          cases h2 : w.parse2 url with
          | true =>
            cases hw : w.write (out_dir ++ "/" ++ dsid ++ ".csv") with
            | true =>
              refine Or.inl ⟨[⟨url, some TIMEOUT⟩, ⟨url, none⟩, ⟨url, none⟩], ?_, ?_⟩
              · simp only [downloadBody, hu, hf, Bool.false_eq_true, if_false,
                  fetchAndParse, hh, if_true, hp, h2, persistStep, hw, hm, pyGet]
              · simp [itemSucceeds, hu, hfal, hh, hp, h2, hw]
            | false =>
              refine Or.inr (Or.inr ⟨[⟨url, some TIMEOUT⟩, ⟨url, none⟩, ⟨url, none⟩],
                PyErr.writeError, ?_, ?_⟩)
              · simp only [downloadBody, hu, hf, Bool.false_eq_true, if_false,
                  fetchAndParse, hh, if_true, hp, h2, persistStep, hw]
              · simp [itemSucceeds, hu, hfal, hp, h2, hw]
          | false =>
            cases h3 : w.parse3 url with
            | true =>
              cases hw : w.write (out_dir ++ "/" ++ dsid ++ ".csv") with
              | true =>
                refine Or.inl ⟨[⟨url, some TIMEOUT⟩, ⟨url, none⟩, ⟨url, none⟩,
                  ⟨url, none⟩], ?_, ?_⟩
                · simp only [downloadBody, hu, hf, Bool.false_eq_true, if_false,
                    fetchAndParse, hh, if_true, hp, h2, h3, persistStep, hw, hm, pyGet]
                · simp [itemSucceeds, hu, hfal, hh, hp, h2, h3, hw]
              | false =>
                refine Or.inr (Or.inr ⟨[⟨url, some TIMEOUT⟩, ⟨url, none⟩, ⟨url, none⟩,
                  ⟨url, none⟩], PyErr.writeError, ?_, ?_⟩)
                · simp only [downloadBody, hu, hf, Bool.false_eq_true, if_false,
                    fetchAndParse, hh, if_true, hp, h2, h3, persistStep, hw]
                · simp [itemSucceeds, hu, hfal, hp, h2, h3, hw]
            | false =>
              refine Or.inr (Or.inr ⟨[⟨url, some TIMEOUT⟩, ⟨url, none⟩, ⟨url, none⟩,
                ⟨url, none⟩], PyErr.parseError, ?_, ?_⟩)
              · simp only [downloadBody, hu, hf, Bool.false_eq_true, if_false,
                  fetchAndParse, hh, if_true, hp, h2, h3]
              · simp [itemSucceeds, hu, hfal, hp, h2, h3]

theorem download_flag (w : World) (ds : RawRecord) (out_dir i m : String)
    (hi : ds.identifier = some i) (hm : ds.modified = some m) :
    ∃ tr, download w ds out_dir =
      Except.ok (tr, (i, m, itemSucceeds w ds i out_dir)) := by
  unfold download
  rw [hi]
  simp only [pyGet]
  rcases downloadBody_flag w ds i out_dir m hm with ⟨tr, hb, hs⟩ | ⟨tr, hb, hs⟩ |
    ⟨tr, e, hb, hs⟩
  · exact ⟨tr, by rw [hb, hs]⟩
  · exact ⟨tr, by rw [hb, hs]⟩
  · refine ⟨tr, ?_⟩
    rw [hb, hs, hm]

/-! ### Run-level helper lemmas -/

theorem runDownloads_ok (w : World) (dir : String) : ∀ todo : List RawRecord,
    (∀ ds ∈ todo, ds.identifier.isSome ∧ ds.modified.isSome) →
    ∃ rs, runDownloads w todo dir = Except.ok rs
  | [], _ => ⟨[], rfl⟩
  | ds :: rest, h => by
    rcases h ds (List.mem_cons_self ds rest) with ⟨hi, hm⟩
    rcases Option.isSome_iff_exists.mp hi with ⟨i, hi⟩
    rcases Option.isSome_iff_exists.mp hm with ⟨m, hm⟩
    rcases download_ok w ds dir i m hi hm with ⟨tr, b, hd⟩
    rcases runDownloads_ok w dir rest
      (fun d hd2 => h d (List.mem_cons_of_mem ds hd2)) with ⟨rs, hr⟩
    exact ⟨(tr, (i, m, b)) :: rs, by simp only [runDownloads, hd, hr]⟩

theorem main_run_ok (w : World) (data : List RawRecord) (old : Meta) (dir : String)
    (hkeys : ∀ ds ∈ theme_filter data, ds.identifier.isSome ∧ ds.modified.isSome) :
    ∃ outs reqs, main_run w data old dir =
      Except.ok ⟨catalogMeta (theme_filter data) [], outs, reqs⟩ := by
  unfold main_run
  rw [mainLoop_eq old (theme_filter data) [] [] hkeys]
  by_cases he : (catalogTodo old (theme_filter data) []).isEmpty
  · simp only [he, if_true]
    exact ⟨[], [], rfl⟩
  · simp only [he, if_false]
    have htodo : ∀ ds ∈ catalogTodo old (theme_filter data) [],
        ds.identifier.isSome ∧ ds.modified.isSome := by
      intro ds hds
      rcases mem_catalogTodo old (theme_filter data) [] ds hds with h | h
      · exact absurd h (List.not_mem_nil ds)
      · exact hkeys ds h
    rcases runDownloads_ok w dir _ htodo with ⟨rs, hr⟩
    rw [hr]
    exact ⟨_, _, rfl⟩

/-! ### Concrete fixtures used by witnesses and counterexamples -/

/-- All-success oracle. -/
def wOK : World :=
  ⟨fun _ => true, fun _ => ParseRes.ok, fun _ => true, fun _ => true, fun _ => true⟩

/-- All-failure oracle. -/
def wFail : World :=
  ⟨fun _ => false, fun _ => ParseRes.otherError, fun _ => false, fun _ => false,
    fun _ => false⟩

def dsGood : RawRecord :=
  ⟨some "id1", some "m1", some "T", ["Hospitals"], [⟨some "text/csv", some "http-u"⟩]⟩

def dsNoUrl : RawRecord := ⟨some "b", some "m2", none, ["Hospitals"], []⟩

/-! ### Claim theorems -/

/-- C1: whenever the catalog was fetched and the loop over well-formed,
uniquely identified descriptors completes, the run succeeds and the saved
watermark map sends every theme-filtered descriptor identifier to its
current modified marker; the saved map is the same for every effect oracle,
so no item download failure affects any watermark entry. -/
theorem c1_watermark_invariant (w : World) (data : List RawRecord) (old : Meta)
    (dir : String)
    (hkeys : ∀ ds ∈ theme_filter data, ds.identifier.isSome ∧ ds.modified.isSome)
    (hnodup : ((theme_filter data).map recKey).Nodup) :
    ∃ res, main_run w data old dir = Except.ok res ∧
      (∀ ds ∈ theme_filter data, ∀ i m, ds.identifier = some i → ds.modified = some m →
        dictGet res.savedMeta i = some m) ∧
      ∀ w2 : World, ∃ res2, main_run w2 data old dir = Except.ok res2 ∧
        res2.savedMeta = res.savedMeta := by
  rcases main_run_ok w data old dir hkeys with ⟨outs, reqs, h⟩
  refine ⟨_, h, ?_, ?_⟩
  · intro ds hds i m hi hm
    have h2 := dictGet_catalogMeta (theme_filter data) [] hnodup ds hds
    simpa [recKey, recMod, hi, hm] using h2
  · intro w2
    rcases main_run_ok w2 data old dir hkeys with ⟨outs2, reqs2, h2⟩
    exact ⟨_, h2, rfl⟩

theorem c1_witness :
    ∃ res, main_run wOK [dsGood, dsNoUrl] [] "out" = Except.ok res ∧
      (∀ ds ∈ theme_filter [dsGood, dsNoUrl], ∀ i m,
        ds.identifier = some i → ds.modified = some m →
        dictGet res.savedMeta i = some m) ∧
      ∀ w2 : World, ∃ res2, main_run w2 [dsGood, dsNoUrl] [] "out" = Except.ok res2 ∧
        res2.savedMeta = res.savedMeta :=
  c1_watermark_invariant wOK [dsGood, dsNoUrl] [] "out" (by decide) (by decide)

/-- C2: for a descriptor carrying string `identifier` and `modified` fields,
`download` never propagates an error: for every effect oracle it returns an
outcome triple carrying that identifier and marker whose success flag is
exactly `itemSucceeds`; in particular, under any failure of URL resolution,
retrieval, parsing or persistence (that is, whenever `itemSucceeds` is
false) the result is the failed triple `(identifier, marker, false)`. -/
theorem c2_download_never_raises (w : World) (ds : RawRecord) (out_dir : String)
    (i m : String) (hi : ds.identifier = some i) (hm : ds.modified = some m) :
    ∃ tr, download w ds out_dir =
        Except.ok (tr, (i, m, itemSucceeds w ds i out_dir)) ∧
      (itemSucceeds w ds i out_dir = false →
        download w ds out_dir = Except.ok (tr, (i, m, false))) := by
  rcases download_flag w ds out_dir i m hi hm with ⟨tr, h⟩
  exact ⟨tr, h, fun hfalse => by rw [h, hfalse]⟩

theorem c2_witness :
    ∃ tr, download wFail dsGood "out" = Except.ok (tr, ("id1", "m1", false)) := by
  rcases c2_download_never_raises wFail dsGood "out" "id1" "m1" rfl rfl
    with ⟨tr, h1, h2⟩
  exact ⟨tr, h2 rfl⟩

/-- C3: `needs_update` is true exactly when the watermark map lacks the
identifier or stores a different marker; it is true on the empty map, false
once the current marker is recorded, and true again when the marker
changes. -/
theorem c3_needs_update_spec (ds : RawRecord) (meta : Meta) (i m : String)
    (hi : ds.identifier = some i) (hm : ds.modified = some m) :
    (needs_update ds meta = Except.ok true ↔
      dictGet meta i = none ∨ ∃ v, dictGet meta i = some v ∧ v ≠ m) ∧
    needs_update ds [] = Except.ok true ∧
    needs_update ds (dictSet meta i m) = Except.ok false ∧
    (∀ m2, m2 ≠ m →
      needs_update { ds with modified := some m2 } (dictSet meta i m) =
        Except.ok true) := by
  refine ⟨?_, ?_, ?_, ?_⟩
  · simp only [needs_update, hi, hm, Except.ok.injEq, bne_iff_ne, ne_eq]
    cases hd : dictGet meta i with
    | none => simp
    | some v => simp
  · simp only [needs_update, hi, hm]
    rfl
  · simp only [needs_update, hi, hm, dictGet_dictSet_self, bne_self_eq_false]
  · intro m2 hne
    simp only [needs_update, hi, dictGet_dictSet_self, Except.ok.injEq, bne_iff_ne, ne_eq,
      Option.some.injEq]
    exact fun he => hne he.symm

theorem c3_witness :
    needs_update ⟨some "a", some "2024-01-01", none, [], []⟩ [] = Except.ok true ∧
    needs_update ⟨some "a", some "2024-01-01", none, [], []⟩
      (dictSet [] "a" "2024-01-01") = Except.ok false ∧
    needs_update ⟨some "a", some "2024-02-01", none, [], []⟩
      (dictSet [] "a" "2024-01-01") = Except.ok true := by
  have h := c3_needs_update_spec ⟨some "a", some "2024-01-01", none, [], []⟩ []
    "a" "2024-01-01" rfl rfl
  exact ⟨h.2.1, h.2.2.1, h.2.2.2 "2024-02-01" (by decide)⟩

theorem downloadBody_success_trace (w : World) (ds : RawRecord)
    (dsid out_dir url m : String) (hm : ds.modified = some m)
    (hurl : get_csv_url ds = some url) (hne : url ≠ "")
    (hhttp : w.http url = true) (hp : w.parse1 url = ParseRes.ok) :
    downloadBody w ds dsid out_dir =
      ([⟨url, some TIMEOUT⟩, ⟨url, none⟩], Except.ok (dsid, m, true)) ∨
    downloadBody w ds dsid out_dir =
      ([⟨url, some TIMEOUT⟩, ⟨url, none⟩], Except.error PyErr.writeError) := by
  have hfal : pyFalsy (some url) = false := beq_eq_false_iff_ne.mpr hne
  simp only [downloadBody, hurl, hfal, Bool.false_eq_true, if_false]
  simp only [fetchAndParse, hhttp, if_true, hp]
  rcases persistStep_shape w ds dsid out_dir [⟨url, some TIMEOUT⟩, ⟨url, none⟩] m hm
    with h | h
  · exact Or.inl h
  · exact Or.inr h

/-- C4 (amended): on a work item whose resolved URL passes validation and
parses on the first attempt, the pipeline issues exactly two HTTP GETs to
the resolved download URL — the validation request with the bounded
`TIMEOUT`, then the CSV-reader fetch carrying no timeout — not one; parse
retries would add further no-timeout GETs. -/
theorem c4_success_path_issues_two_requests (w : World) (ds : RawRecord)
    (out_dir i m url : String) (hi : ds.identifier = some i)
    (hm : ds.modified = some m) (hurl : get_csv_url ds = some url) (hne : url ≠ "")
    (hhttp : w.http url = true) (hp : w.parse1 url = ParseRes.ok) :
    ∃ b, download w ds out_dir =
      Except.ok ([⟨url, some TIMEOUT⟩, ⟨url, none⟩], (i, m, b)) := by
  unfold download
  rw [hi]
  simp only [pyGet]
  rcases downloadBody_success_trace w ds i out_dir url m hm hurl hne hhttp hp
    with h | h
  · exact ⟨true, by rw [h]⟩
  · refine ⟨false, ?_⟩
    rw [h, hm]

theorem c4_witness :
    ∃ b, download wOK dsGood "out" =
      Except.ok ([⟨"http-u", some TIMEOUT⟩, ⟨"http-u", none⟩], ("id1", "m1", b)) :=
  c4_success_path_issues_two_requests wOK dsGood "out" "id1" "m1" "http-u"
    rfl rfl rfl (by decide) rfl rfl

/-- C4 counterexample: on a dataset whose download succeeds, the system
issues two HTTP GETs to the resolved URL, not exactly one, and the second
request (the CSV reader) carries no timeout. -/
theorem c4_counterexample :
    download wOK dsGood "out" =
      Except.ok ([⟨"http-u", some TIMEOUT⟩, ⟨"http-u", none⟩], ("id1", "m1", true)) ∧
    ¬ ([(⟨"http-u", some TIMEOUT⟩ : Request), ⟨"http-u", none⟩].length = 1) ∧
    (⟨"http-u", none⟩ : Request).timeout = none :=
  ⟨rfl, by decide, rfl⟩

/-- C5 (amended): when every theme-filtered descriptor marker equals its
entry in the loaded map, the run terminates successfully with no download
invoked and no content request issued, and saves the map sending each
catalog identifier to its marker; that map is identical to the previously
persisted one exactly when the previous map consists of those entries (in
particular it drops entries for identifiers no longer in the catalog). -/
theorem c5_empty_worklist (w : World) (data : List RawRecord) (old : Meta)
    (dir : String)
    (hkeys : ∀ ds ∈ theme_filter data, ds.identifier.isSome ∧ ds.modified.isSome)
    (hmatch : ∀ ds ∈ theme_filter data, dictGet old (recKey ds) = some (recMod ds)) :
    main_run w data old dir =
      Except.ok ⟨catalogMeta (theme_filter data) [], [], []⟩ ∧
    (old = catalogMeta (theme_filter data) [] →
      main_run w data old dir = Except.ok ⟨old, [], []⟩) := by
  have h1 : main_run w data old dir =
      Except.ok ⟨catalogMeta (theme_filter data) [], [], []⟩ := by
    unfold main_run
    rw [mainLoop_eq old _ [] [] hkeys, catalogTodo_nil_of_match old _ hmatch []]
    rfl
  exact ⟨h1, fun he => by rw [h1, ← he]⟩

theorem c5_witness :
    main_run wOK [⟨some "a", some "1", none, ["Hospitals"], []⟩] [("a", "1")] "out" =
      Except.ok ⟨[("a", "1")], [], []⟩ :=
  (c5_empty_worklist wOK [⟨some "a", some "1", none, ["Hospitals"], []⟩]
    [("a", "1")] "out" (by decide) (by decide)).2 (by decide)

/-- C5 counterexample: with catalog `[a ↦ marker 1]` and previously
persisted map `{a ↦ 1, b ↦ 2}`, every catalog marker matches its entry and
no download occurs, yet the rewritten watermark map `{a ↦ 1}` is not
identical to the previous one: the stale entry `b` is dropped. -/
theorem c5_counterexample :
    dictGet [("a", "1"), ("b", "2")] "a" = some "1" ∧
    main_run wOK [⟨some "a", some "1", none, ["Hospitals"], []⟩]
      [("a", "1"), ("b", "2")] "out" = Except.ok ⟨[("a", "1")], [], []⟩ ∧
    [("a", "1")] ≠ [("a", "1"), ("b", "2")] :=
  ⟨rfl, rfl, by decide⟩

theorem find?_first (p : Distribution → Bool) : ∀ (pre : List Distribution)
    (d : Distribution) (post : List Distribution), (∀ e ∈ pre, p e = false) →
    p d = true → List.find? p (pre ++ d :: post) = some d
  | [], d, post, _, hd => by simp [List.find?_cons, hd]
  | e :: pre, d, post, h, hd => by
    rw [List.cons_append, List.find?_cons, h e (List.mem_cons_self e pre)]
    exact find?_first p pre d post (fun x hx => h x (List.mem_cons_of_mem e hx)) hd

theorem download_falsy_url (w : World) (ds : RawRecord) (dir i m : String)
    (hi : ds.identifier = some i) (hm : ds.modified = some m)
    (hf : pyFalsy (get_csv_url ds) = true) :
    download w ds dir = Except.ok ([], (i, m, false)) := by
  unfold download downloadBody
  simp only [hi, pyGet, hf, if_true, hm]

/-- C6: URL resolution picks the first distribution whose media type is
`text/csv`, wherever it sits in the list; with no such entry it falls back
to the first distribution URL; with an empty distribution list there is no
URL and `download` fails without issuing any content request. -/
theorem c6_url_resolution :
    (∀ (ds : RawRecord) (pre post : List Distribution) (d : Distribution),
      ds.distribution = pre ++ d :: post → (∀ e ∈ pre, csvPred e = false) →
      csvPred d = true → get_csv_url ds = d.downloadURL) ∧
    (∀ (ds : RawRecord) (d : Distribution) (rest : List Distribution),
      ds.distribution = d :: rest → (∀ e ∈ ds.distribution, csvPred e = false) →
      get_csv_url ds = d.downloadURL) ∧
    (∀ (w : World) (ds : RawRecord) (dir i m : String),
      ds.identifier = some i → ds.modified = some m → ds.distribution = [] →
      get_csv_url ds = none ∧ download w ds dir = Except.ok ([], (i, m, false))) := by
  refine ⟨?_, ?_, ?_⟩
  · intro ds pre post d hdist hpre hd
    unfold get_csv_url
    rw [hdist, find?_first csvPred pre d post hpre hd]
  · intro ds d rest hdist hnone
    unfold get_csv_url
    rw [List.find?_eq_none.mpr (fun x hx => by rw [hnone x hx]; exact Bool.false_ne_true),
      hdist]
  · intro w ds dir i m hi hm hdist
    have hu : get_csv_url ds = none := by
      unfold get_csv_url
      rw [hdist]
      rfl
    exact ⟨hu, download_falsy_url w ds dir i m hi hm (by rw [hu]; rfl)⟩

theorem c6_witness :
    get_csv_url ⟨some "x", some "m", none, [],
      [⟨some "application/json", some "u1"⟩, ⟨some "text/csv", some "u2"⟩]⟩ =
      some "u2" ∧
    get_csv_url ⟨some "x", some "m", none, [],
      [⟨some "application/json", some "u1"⟩, ⟨some "application/pdf", some "u3"⟩]⟩ =
      some "u1" ∧
    (get_csv_url ⟨some "e", some "m", none, [], []⟩ = none ∧
      download wOK ⟨some "e", some "m", none, [], []⟩ "out" =
        Except.ok ([], ("e", "m", false))) := by
  refine ⟨?_, ?_, ?_⟩
  · exact c6_url_resolution.1 _ [⟨some "application/json", some "u1"⟩] []
      ⟨some "text/csv", some "u2"⟩ rfl (by decide) (by decide)
  · exact c6_url_resolution.2.1 _ ⟨some "application/json", some "u1"⟩
      [⟨some "application/pdf", some "u3"⟩] rfl (by decide)
  · exact c6_url_resolution.2.2 wOK _ "out" "e" "m" rfl rfl rfl

/-- C9: when the selected distribution entry (the `text/csv` match, or the
first entry as fallback) has a missing, `None` or empty `downloadURL`,
`get_csv_url` yields that falsy value, and `download` returns a failed
outcome without issuing any content request. -/
theorem c9_unusable_url_fails (w : World) (ds : RawRecord) (dir i m : String)
    (d : Distribution) (hi : ds.identifier = some i) (hm : ds.modified = some m)
    (hsel : ds.distribution.find? csvPred = some d ∨
      (ds.distribution.find? csvPred = none ∧ ds.distribution.head? = some d))
    (hbad : d.downloadURL = none ∨ d.downloadURL = some "") :
    get_csv_url ds = d.downloadURL ∧ pyFalsy (get_csv_url ds) = true ∧
    download w ds dir = Except.ok ([], (i, m, false)) := by
  have hu : get_csv_url ds = d.downloadURL := by
    unfold get_csv_url
    rcases hsel with h | ⟨h1, h2⟩
    · rw [h]
    · rw [h1]
      cases hd : ds.distribution with
      | nil => rw [hd] at h2; cases h2
      | cons e rest =>
        rw [hd] at h2
        rw [show e = d from Option.some.injEq e d ▸ h2]
  have hf : pyFalsy (get_csv_url ds) = true := by
    rw [hu]
    rcases hbad with h | h
    · rw [h]; rfl
    · rw [h]; rfl
  exact ⟨hu, hf, download_falsy_url w ds dir i m hi hm hf⟩

theorem c9_witness :
    get_csv_url ⟨some "id9", some "m9", none, [], [⟨some "text/csv", none⟩]⟩ = none ∧
    pyFalsy (get_csv_url ⟨some "id9", some "m9", none, [],
      [⟨some "text/csv", none⟩]⟩) = true ∧
    download wOK ⟨some "id9", some "m9", none, [], [⟨some "text/csv", none⟩]⟩ "out" =
      Except.ok ([], ("id9", "m9", false)) :=
  c9_unusable_url_fails wOK _ "out" "id9" "m9" ⟨some "text/csv", none⟩ rfl rfl
    (Or.inl (by decide)) (Or.inl rfl)

theorem mainLoop_missing_key (old : Meta) : ∀ (catalog : List RawRecord)
    (todo : List RawRecord) (nm : Meta),
    (∃ ds, ds ∈ catalog ∧ (ds.identifier = none ∨ ds.modified = none)) →
    ∃ k, mainLoop old catalog todo nm = Except.error (PyErr.keyError k) ∧
      (k = "identifier" ∨ k = "modified")
  | [], _, _, h => by
    rcases h with ⟨ds, hds, _⟩
    exact absurd hds (List.not_mem_nil ds)
  | ds :: rest, todo, nm, h => by
    cases hi : ds.identifier with
    | none =>
      exact ⟨"identifier", by simp only [mainLoop, needs_update, hi], Or.inl rfl⟩
    | some i =>
      cases hm : ds.modified with
      | none =>
        exact ⟨"modified", by simp only [mainLoop, needs_update, hi, hm], Or.inr rfl⟩
      | some m =>
        rcases h with ⟨d, hd, hbad⟩
        rcases List.mem_cons.mp hd with he | he
        · subst he
          rcases hbad with hb | hb
          · rw [hb] at hi; cases hi
          · rw [hb] at hm; cases hm
        · rcases mainLoop_missing_key old rest
            (if dictGet old i != some m then todo ++ [ds] else todo)
            (dictSet nm i m) ⟨d, he, hbad⟩ with ⟨k, hk, hor⟩
          refine ⟨k, ?_, hor⟩
          simp only [mainLoop, needs_update, hi, hm, pyGet]
          exact hk

/-- C10: the no-raise guarantee needs every theme-matching record to carry
the `identifier` and `modified` keys: if one lacks either, the catalog loop
raises an uncaught `KeyError` and the run aborts with no watermark map
saved (an `Except.error` run result never reaches `save_meta`). -/
theorem c10_missing_key_aborts (w : World) (data : List RawRecord) (old : Meta)
    (dir : String)
    (h : ∃ ds, ds ∈ theme_filter data ∧ (ds.identifier = none ∨ ds.modified = none)) :
    ∃ k, main_run w data old dir = Except.error (PyErr.keyError k) ∧
      (k = "identifier" ∨ k = "modified") := by
  rcases mainLoop_missing_key old (theme_filter data) [] [] h with ⟨k, hk, hor⟩
  refine ⟨k, ?_, hor⟩
  unfold main_run
  rw [hk]

theorem c10_witness :
    ∃ k, main_run wOK [⟨some "x", none, none, ["Hospitals"], []⟩] [] "out" =
      Except.error (PyErr.keyError k) ∧ (k = "identifier" ∨ k = "modified") :=
  c10_missing_key_aborts wOK [⟨some "x", none, none, ["Hospitals"], []⟩] [] "out"
    ⟨⟨some "x", none, none, ["Hospitals"], []⟩, by decide, Or.inr rfl⟩

end HospitalsEtl
